import Mathlib

/-!
Verification of the `kont` library (delimited continuations and algebraic
effects for Go) against its natural-language specification.

The development shallowly embeds the Go sources:

* `cont.go`, `monad.go`, `run.go` and the Shift/Reset file are generic in the
  answer type `R` and the value type `A`; they are translated verbatim as the
  polymorphic `Cont R A` combinators below.
* The effect machinery instantiates `Cont` at the dynamic type `Resumed = any`.
  Go's `any` universe is modelled by the inductive `G` (first-order ground
  values: nil, unit, integers, strings, booleans, pairs, Either) together with
  `Dyn`, the type of values flowing through effectful computations: either a
  ground value or an effect-suspension marker (`effect.go`'s `effectMarker`
  and its fused variants, which are extensionally a marker carrying the
  operation and a resume continuation).  Handler responses and the payloads of
  operations are ground values; Lean's strict positivity requires this
  stratification of Go's untyped `any`.
* `Catch[E, A]` stores two computations (`Body`, `Handler`).  They are only
  ever consumed by `Catch.DispatchError`, which immediately applies them to
  the error runner's initial continuation `rightCont` (error.go `RunError`).
  Since that application is pure, the model stores the bodies pre-applied to
  `rightCont` (fields `body : Dyn`, `handler : G → Dyn`), which keeps the
  inductive strictly positive.
* Frame-world closures that take suspension-valued (`Dyn`) inputs cannot be
  stored in an inductive.  The only such closure in the sources is the one
  `Reify` builds (`bridge.go`, `fromResumed`'s `BindFrame.F`); it is
  defunctionalized as the `BindFn.reifyFn` tag, interpreted by `applyBindFn`.
  All user-facing frame constructors store ordinary `G`-valued functions.
* Go panics are modelled by the `Outcome.fail msg` result; the iterative
  trampoline `evalFrames`, which can diverge on adversarial frames, takes
  fuel and reports exhaustion as `Outcome.timeout`.  Pool acquire/release
  operations (`trampoline.go`, the frame pools) only recycle memory and are
  no-ops in a garbage-collected pure model; the `pooled` flags they toggle are
  kept as data.
* Zero values of Go type parameters (`var zero A`) are passed explicitly as
  `G` arguments (`zA`), mirroring the generic instantiation.
-/

namespace Kont

/-- `Cont[R, A]` from cont.go: a computation in continuation-passing style,
a function from a continuation `A → R` to the final result `R`. -/
def Cont (R A : Type) := (A → R) → R

/-- `Return` from cont.go: lift a pure value, immediately applying the
continuation. -/
def Return {R A : Type} (a : A) : Cont R A := fun k => k a

/-- `Suspend` from cont.go: the primitive constructor, the identity on CPS
functions. -/
def Suspend {R A : Type} (f : (A → R) → R) : Cont R A := f

/-- `Bind` from monad.go: run `m`, feed its result to `f`, run the produced
computation with the outer continuation. -/
def Bind {R A B : Type} (m : Cont R A) (f : A → Cont R B) : Cont R B :=
  fun k => m (fun a => f a k)

/-- `Map` from monad.go: apply a pure function to the result of `m`. -/
def Map {R A B : Type} (m : Cont R A) (f : A → B) : Cont R B :=
  fun k => m (fun a => k (f a))

/-- `Then` from monad.go: sequence two computations, discarding the first
result. -/
def Then {R A B : Type} (m : Cont R A) (n : Cont R B) : Cont R B :=
  fun k => m (fun _ => n k)

/-- `identity` from run.go: the identity continuation. -/
def identity {A : Type} (a : A) : A := a

/-- `Run` from run.go: execute with the identity continuation (`R = A`). -/
def Run {A : Type} (m : Cont A A) : A := m identity

/-- `RunWith` from run.go: execute with a custom final continuation. -/
def RunWith {R A : Type} (m : Cont R A) (k : A → R) : R := m k

/-- `Shift` from the delimited-control file: capture the continuation up to
the nearest `Reset`; in the CPS encoding it is the identity on the body. -/
def Shift {R A : Type} (f : (A → R) → R) : Cont R A := f

/-- `Reset` from the delimited-control file: delimit `Shift`, running the
body with the identity continuation and returning the result. -/
def Reset {R A : Type} (m : Cont A A) : Cont R A := Return (Run m)

/-- Ground Go values: the first-order data that operations carry and that
handlers respond with (`nil`, `struct{}{}`, machine integers, strings,
booleans, pairs, and the `Either` struct from error.go encoded by its
`isRight` discriminant). -/
inductive G where
  | gnil
  | gunit
  | gint (n : Int)
  | gstr (s : String)
  | gbool (b : Bool)
  | gpair (a b : G)
  | gleft (e : G)
  | gright (a : G)
deriving DecidableEq

mutual

/-- A Go `Resumed`/`Erased` (`any`) value as seen by the effect machinery:
either an ordinary ground value or an `effectSuspension` marker from
effect.go carrying the pending operation and a resume continuation.  The
fused markers (`bindMarker`, `thenMarker`, `mapMarker`) are allocation
optimizations whose `Resume` is extensionally a single function of the
handler's response, so one constructor covers all four marker shapes. -/
inductive Dyn where
  | dg (g : G)
  | dsusp (op : Op) (k : G → Dyn)

/-- Effect operations (`Operation`).  `Get`/`Put`/`Modify` are the State
operations, `Ask` the Reader operation, `Tell` the Writer operation,
`Throw`/`Catch` the Error operations (error.go), and `userOp` stands for a
user-defined operation implementing none of the built-in dispatch
capabilities.  `catchOp` stores `Body` and `Handler` pre-applied to the
error runner's initial continuation `rightCont` (see the header comment),
plus the zero value of the phantom result type `A`. -/
inductive Op where
  | getOp
  | putOp (v : G)
  | modifyOp (f : G → G)
  | askOp
  | tellOp (v : G)
  | throwOp (e : G)
  | catchOp (zA : G) (body : Dyn) (handler : G → Dyn)
  | userOp (tag : String)

end

/-- `Eff[A] = Cont[Resumed, A]` (cont.go) at the model's dynamic types:
value type `G`, answer type `Dyn`. -/
abbrev EffC := Cont Dyn G

/-- `toResumed` from effect.go: the identity initial continuation embedding a
typed value into `Resumed`. -/
def initK : G → Dyn := fun a => .dg a

/-- `Perform` from effect.go: suspend on an operation, packaging the current
continuation in an effect marker. -/
def PerformE (op : Op) : EffC := fun k => .dsusp op k

/-- The result of running a piece of Go code: a normal value, a panic with
its message, or fuel exhaustion of a fueled loop (the modelling artifact for
potential divergence). -/
inductive Outcome (R : Type) where
  | ok (r : R)
  | fail (msg : String)
  | timeout
deriving DecidableEq

/-- A handler's `Dispatch` method (effect.go `Handler`), threading explicit
handler state `σ` (Go handlers mutate state through captured pointers).
`ok (v, true)` resumes with `v`; `ok (v, false)` short-circuits with `v`;
`fail` is a dispatch panic; `timeout` is fuel exhaustion inside a dispatch
that runs a nested computation (`Catch`). -/
abbrev Disp (σ : Type) := σ → Op → σ × Outcome (G × Bool)

/-- `handleDispatch` from effect.go: the closure-world trampoline loop.
While the value is an effect suspension, dispatch its operation; resume on
`(v, true)`, return `v` on `(v, false)`.  A `nil` value completes with the
zero value `zeroR` of the answer type; any other value is the final result
(the `result.(R)` cast, which always succeeds on the ground values the model
threads). -/
def handleDispatch {σ : Type} (zeroR : G) (d : Disp σ) (s : σ) : Dyn → σ × Outcome G
  | .dsusp op k =>
    match d s op with
    | (s', .ok (v, true)) => handleDispatch zeroR d s' (k v)
    | (s', .ok (v, false)) => (s', .ok v)
    | (s', .fail msg) => (s', .fail msg)
    | (s', .timeout) => (s', .timeout)
  | .dg .gnil => (s, .ok zeroR)
  | .dg g => (s, .ok g)

/-- `Handle` from effect.go: apply the computation to the identity initial
continuation and run the trampoline. -/
def HandleE {σ : Type} (zeroR : G) (d : Disp σ) (s : σ) (m : EffC) : σ × Outcome G :=
  handleDispatch zeroR d s (m initK)

/-- Number of loop iterations `handleDispatch` performs; used as a fuel
bound when comparing against the fueled frame-world evaluator. -/
def hdSteps {σ : Type} (d : Disp σ) (s : σ) : Dyn → Nat
  | .dsusp op k =>
    match d s op with
    | (s', .ok (v, true)) => hdSteps d s' (k v) + 1
    | _ => 1
  | .dg _ => 1

mutual

/-- The defunctionalized frame chain from frame.go and trampoline.go.
`ret` is `ReturnFrame`; `bindF`, `mapF`, `thenF`, `effectF` are
`BindFrame`/`MapFrame`/`ThenFrame`/`EffectFrame` (with their `pooled` flags
where the source has them; `MapFrame` has none); `chainF` is
`chainedFrame`; `unwindF` is a user frame implementing the `Unwind`
capability; `unknownF` is a user frame that does not implement it (such as
the test suite's `NoUnwindFrame`). -/
inductive Frame where
  | ret
  | bindF (F : BindFn) (next : Frame) (pooled : Bool)
  | mapF (F : G → G) (next : Frame)
  | thenF (second : Exp) (next : Frame) (pooled : Bool)
  | effectF (op : Op) (resume : G → Dyn) (next : Frame) (pooled : Bool)
  | chainF (first : Frame) (rest : Frame) (pooled : Bool)
  | unwindF (u : G → Dyn × Frame)
  | unknownF (tag : String)

/-- The function stored in a `BindFrame`.  User-level `ExprBind` stores a
function of the (ground) intermediate value; `reifyFn zA` is the one closure
in the sources whose argument can itself be a suspension: the recursive
`fromResumed` translation installed by `Reify` (bridge.go), defunctionalized
here with the zero value of the answer type as its environment. -/
inductive BindFn where
  | userFn (f : G → Exp)
  | reifyFn (zA : G)

/-- `Expr[A]` from frame.go: a current value paired with the head frame. -/
inductive Exp where
  | mk (value : G) (frame : Frame)

end

/-- The `Value` field of an `Expr`. -/
def Exp.value : Exp → G
  | .mk v _ => v

/-- The `Frame` field of an `Expr`. -/
def Exp.frame : Exp → Frame
  | .mk _ f => f

/-- `ChainFrames` from trampoline.go: link two frame chains, returning the
other operand when either side is `ReturnFrame` and otherwise building an
un-pooled `chainedFrame`. -/
def ChainFramesD : Frame → Frame → Frame
  | .ret, second => second
  | first, .ret => first
  | first, second => .chainF first second false

/-- `chainFromPool` from trampoline.go: identical elision to `ChainFrames`,
but a constructed node comes from the chain pool and is marked `pooled`. -/
def chainFromPoolD : Frame → Frame → Frame
  | .ret, second => second
  | first, .ret => first
  | first, second => .chainF first second true

/-- The Go type assertion `current.(A)` on an `Erased` value: succeeds on
ground values, fails (panics) when the value is an effect suspension. -/
def asG : Dyn → Option G
  | .dg g => some g
  | .dsusp _ _ => none

/-- `ExprReturn` from frame.go: a completed computation. -/
def ExprReturnE (a : G) : Exp := ⟨a, .ret⟩

/-- `ExprSuspend` from frame.go: a computation suspended at a frame (the
unobserved `Value` field, Go's `var zero A`, is modelled as `gnil`). -/
def ExprSuspendE (frame : Frame) : Exp := ⟨.gnil, frame⟩

/-- `identityResume` from effect.go: the identity resume function installed
by `ExprPerform`. -/
def identityResume : G → Dyn := fun v => .dg v

/-- `ExprPerform` from effect.go: suspend at an `EffectFrame` carrying the
operation, with the identity resume and a `ReturnFrame` next (the
unobserved zero `Value` is modelled as `gnil`). -/
def ExprPerformE (op : Op) : Exp :=
  ⟨.gnil, .effectF op identityResume .ret false⟩

/-- `ExprBind` from trampoline.go: if `m` has completed, apply `f` eagerly;
otherwise splice a fresh `BindFrame` after `m`'s frame (the unobserved zero
`Value` is modelled as `gnil`). -/
def ExprBindE (m : Exp) (f : G → Exp) : Exp :=
  match m.frame with
  | .ret => f m.value
  | mf => ⟨.gnil, ChainFramesD mf (.bindF (.userFn f) .ret false)⟩

/-- `ExprMap` from trampoline.go: if `m` has completed, apply `f` eagerly;
otherwise splice a fresh `MapFrame` after `m`'s frame. -/
def ExprMapE (m : Exp) (f : G → G) : Exp :=
  match m.frame with
  | .ret => ExprReturnE (f m.value)
  | mf => ⟨.gnil, ChainFramesD mf (.mapF f .ret)⟩

/-- `ExprThen` from trampoline.go: if `m` has completed, return `n`;
otherwise splice a fresh `ThenFrame` after `m`'s frame. -/
def ExprThenE (m n : Exp) : Exp :=
  match m.frame with
  | .ret => n
  | mf => ⟨.gnil, ChainFramesD mf (.thenF n .ret false)⟩

/-- `fromResumed` from bridge.go: convert a `Resumed` value into an `Expr`.
A `nil` completes with the zero value; any other non-suspension completes
with itself; a suspension becomes an `EffectFrame` whose resume is the
marker's `Resume` and whose next frame is the lazy recursive translation
(the defunctionalized `reifyFn`). -/
def fromResumedE (zA : G) : Dyn → Exp
  | .dg .gnil => ⟨zA, .ret⟩
  | .dg g => ⟨g, .ret⟩
  | .dsusp op k => ⟨zA, .effectF op k (.bindF (.reifyFn zA) .ret false) false⟩

/-- Apply a stored `BindFrame.F` to the current value.  A user function
first performs the `a.(A)` cast (failing on a suspension); the reify
closure is `fromResumed`, total on `Resumed` values. -/
def applyBindFn : BindFn → Dyn → Outcome Exp
  | .userFn f, cur =>
    match asG cur with
    | some g => .ok (f g)
    | none => .fail "kont: interface conversion"
  | .reifyFn zA, cur => .ok (fromResumedE zA cur)

/-- `Reify` from bridge.go: apply the computation to the identity initial
continuation and translate the outcome. -/
def ReifyE (zA : G) (m : EffC) : Exp := fromResumedE zA (m initK)

/-- `evalFrames` from trampoline.go instantiated with the handler-driven
processor (`handlerProcessor`): the unified iterative evaluator over a
`(current, frame)` pair.  One fuel unit is consumed per loop pass (the Go
loop can diverge on adversarial frames, so the model is fueled).  Chain
nodes are flattened exactly as in the source: nested chains are rotated
right; a non-chain head frame takes one step with the tail respliced via
`chainFromPool`.  Pool releases are memory-management no-ops here.  An
unrecognized frame without the `Unwind` capability panics with the
source's message, identically inside and outside a chain. -/
def evalFramesH {σ : Type} (d : Disp σ) : Nat → σ → Dyn → Frame → σ × Outcome G
  | 0, s, _, _ => (s, .timeout)
  | fuel + 1, s, current, frame =>
    match frame with
    | .chainF first rest _ =>
      match first with
      | .chainF f1 r1 _ =>
        evalFramesH d fuel s current (chainFromPoolD f1 (chainFromPoolD r1 rest))
      | .ret => evalFramesH d fuel s current rest
      | .bindF F fN _ =>
        match applyBindFn F current with
        | .ok e =>
          evalFramesH d fuel s (.dg e.value) (chainFromPoolD (chainFromPoolD e.frame fN) rest)
        | .fail msg => (s, .fail msg)
        | .timeout => (s, .timeout)
      | .mapF F fN =>
        match asG current with
        | some g => evalFramesH d fuel s (.dg (F g)) (chainFromPoolD fN rest)
        | none => (s, .fail "kont: interface conversion")
      | .thenF sec fN _ =>
        evalFramesH d fuel s (.dg sec.value) (chainFromPoolD (chainFromPoolD sec.frame fN) rest)
      | .effectF op resumeF fN _ =>
        match d s op with
        | (s', .ok (v, true)) => evalFramesH d fuel s' (resumeF v) (chainFromPoolD fN rest)
        | (s', .ok (v, false)) => (s', .ok v)
        | (s', .fail msg) => (s', .fail msg)
        | (s', .timeout) => (s', .timeout)
      | .unwindF u =>
        match asG current with
        | some g => evalFramesH d fuel s (u g).1 (chainFromPoolD (u g).2 rest)
        | none => (s, .fail "kont: interface conversion")
      | .unknownF _ => (s, .fail "kont: frame type does not implement Unwind")
    | .ret =>
      match asG current with
      | some g => (s, .ok g)
      | none => (s, .fail "kont: interface conversion")
    | .bindF F fN _ =>
      match applyBindFn F current with
      | .ok e => evalFramesH d fuel s (.dg e.value) (chainFromPoolD e.frame fN)
      | .fail msg => (s, .fail msg)
      | .timeout => (s, .timeout)
    | .mapF F fN =>
      match asG current with
      | some g => evalFramesH d fuel s (.dg (F g)) fN
      | none => (s, .fail "kont: interface conversion")
    | .thenF sec fN _ =>
      evalFramesH d fuel s (.dg sec.value) (chainFromPoolD sec.frame fN)
    | .effectF op resumeF fN _ =>
      match d s op with
      | (s', .ok (v, true)) => evalFramesH d fuel s' (resumeF v) fN
      | (s', .ok (v, false)) => (s', .ok v)
      | (s', .fail msg) => (s', .fail msg)
      | (s', .timeout) => (s', .timeout)
    | .unwindF u =>
      match asG current with
      | some g => evalFramesH d fuel s (u g).1 (u g).2
      | none => (s, .fail "kont: interface conversion")
    | .unknownF _ => (s, .fail "kont: frame type does not implement Unwind")

/-- `HandleExpr` from trampoline.go: evaluate an `Expr` with a handler via
`evalFrames`. -/
def HandleExprE {σ : Type} (d : Disp σ) (fuel : Nat) (s : σ) (m : Exp) : σ × Outcome G :=
  evalFramesH d fuel s (.dg m.value) m.frame

/-- `pureEval` from trampoline.go: the sentinel handler for `RunPure` whose
`Dispatch` unconditionally panics. -/
def pureDisp : Disp Unit := fun u _ =>
  (u, .fail "kont: unhandled effect frame in pure computation - use HandleExpr")

/-- `RunPure` from trampoline.go: evaluate a pure `Expr` to completion,
panicking on any effect frame. -/
def RunPureE (fuel : Nat) (m : Exp) : Outcome G :=
  (HandleExprE pureDisp fuel () m).2

/-- The result of `evalFrames` instantiated with the stepping processor
(`stepProcessor`, error.go's stepping half): either a completed `Erased`
value, a suspension's data (operation, `EffectFrame.Resume`, remaining
frames), a panic, or fuel exhaustion. -/
inductive StepOut where
  | sdone (v : Dyn)
  | ssusp (op : Op) (resumeF : G → Dyn) (rest : Frame)
  | sfail (msg : String)
  | stimeout

/-- `evalFrames` instantiated with `stepProcessor`: identical frame
iteration to `evalFramesH`, but an `EffectFrame` exits the loop with a
suspension instead of dispatching (the suspension-object reuse is a pure
allocation optimization and invisible here). -/
def evalFramesS : Nat → Dyn → Frame → StepOut
  | 0, _, _ => .stimeout
  | fuel + 1, current, frame =>
    match frame with
    | .chainF first rest _ =>
      match first with
      | .chainF f1 r1 _ =>
        evalFramesS fuel current (chainFromPoolD f1 (chainFromPoolD r1 rest))
      | .ret => evalFramesS fuel current rest
      | .bindF F fN _ =>
        match applyBindFn F current with
        | .ok e => evalFramesS fuel (.dg e.value) (chainFromPoolD (chainFromPoolD e.frame fN) rest)
        | .fail msg => .sfail msg
        | .timeout => .stimeout
      | .mapF F fN =>
        match asG current with
        | some g => evalFramesS fuel (.dg (F g)) (chainFromPoolD fN rest)
        | none => .sfail "kont: interface conversion"
      | .thenF sec fN _ =>
        evalFramesS fuel (.dg sec.value) (chainFromPoolD (chainFromPoolD sec.frame fN) rest)
      | .effectF op resumeF fN _ => .ssusp op resumeF (chainFromPoolD fN rest)
      | .unwindF u =>
        match asG current with
        | some g => evalFramesS fuel (u g).1 (chainFromPoolD (u g).2 rest)
        | none => .sfail "kont: interface conversion"
      | .unknownF _ => .sfail "kont: frame type does not implement Unwind"
    | .ret => .sdone current
    | .bindF F fN _ =>
      match applyBindFn F current with
      | .ok e => evalFramesS fuel (.dg e.value) (chainFromPoolD e.frame fN)
      | .fail msg => .sfail msg
      | .timeout => .stimeout
    | .mapF F fN =>
      match asG current with
      | some g => evalFramesS fuel (.dg (F g)) fN
      | none => .sfail "kont: interface conversion"
    | .thenF sec fN _ =>
      evalFramesS fuel (.dg sec.value) (chainFromPoolD sec.frame fN)
    | .effectF op resumeF fN _ => .ssusp op resumeF fN
    | .unwindF u =>
      match asG current with
      | some g => evalFramesS fuel (u g).1 (u g).2
      | none => .sfail "kont: interface conversion"
    | .unknownF _ => .sfail "kont: frame type does not implement Unwind"

/-- `Suspension[A]` from the stepping half of error.go: a computation
suspended on an operation, with a single-writer use counter enforcing
one-shot resumption.  `cont` is the closure-world `effectSuspension`'s
`Resume` when present; otherwise `efResume`/`rest` are the expression-world
`EffectFrame.Resume` and remaining frame chain (in Go the unused pair of
fields is nil; here the unused fields hold inert defaults and are only read
on the path their discriminant `cont` selects). -/
structure Susp where
  used : Nat
  op : Op
  cont : Option (G → Dyn)
  efResume : G → Dyn
  rest : Frame

/-- `classifyResumed` from error.go: classify a `Resumed` value as a
completed value or a fresh closure-world suspension (suspension check
first, then the `nil` check, then the `result.(A)` cast).  `zA` is
`var zero A`. -/
def classifyResumedD (zA : G) : Dyn → G × Option Susp
  | .dsusp op k => (zA, some ⟨0, op, some k, identityResume, .ret⟩)
  | .dg .gnil => (zA, none)
  | .dg g => (g, none)

/-- `classifyStepResult` from error.go: unpack the stepping evaluator's
result into a completed value or a fresh expression-world suspension. -/
def classifyStepOut (zA : G) : StepOut → Outcome (G × Option Susp)
  | .sdone v =>
    match asG v with
    | some g => .ok (g, none)
    | none => .fail "kont: interface conversion"
  | .ssusp op resumeF rest => .ok (zA, some ⟨0, op, none, resumeF, rest⟩)
  | .sfail msg => .fail msg
  | .stimeout => .timeout

/-- `Step` from error.go: apply the computation to the identity initial
continuation and classify the result. -/
def StepE (zA : G) (m : EffC) : G × Option Susp :=
  classifyResumedD zA (m initK)

/-- `StepExpr` from error.go: drive an `Expr` with the stepping evaluator
and classify the result. -/
def StepExprE (zA : G) (fuel : Nat) (m : Exp) : Outcome (G × Option Susp) :=
  classifyStepOut zA (evalFramesS fuel (.dg m.value) m.frame)

/-- `Suspension.Resume` from error.go: atomically increment the use
counter; a non-first use panics with the double-resume error.  A first use
advances the underlying representation one step: the closure path resumes
the stored marker and classifies; the expression path re-enters the
stepping evaluator at `(Resume(v), rest)`.  Returns the updated counter
state alongside the result. -/
def Susp.resume (zA : G) (efuel : Nat) (sp : Susp) (v : G) :
    Susp × Outcome (G × Option Susp) :=
  let sp' := { sp with used := sp.used + 1 }
  if sp.used + 1 ≠ 1 then (sp', .fail "kont: suspension resumed twice")
  else
    match sp.cont with
    | some k => (sp', .ok (classifyResumedD zA (k v)))
    | none => (sp', classifyStepOut zA (evalFramesS efuel (sp.efResume v) sp.rest))

/-- `Suspension.TryResume` from error.go: the non-panicking variant; a
consumed suspension yields `(zero, none, false)`. -/
def Susp.tryResume (zA : G) (efuel : Nat) (sp : Susp) (v : G) :
    Susp × Outcome ((G × Option Susp) × Bool) :=
  let sp' := { sp with used := sp.used + 1 }
  if sp.used + 1 ≠ 1 then (sp', .ok ((zA, none), false))
  else
    match sp.cont with
    | some k => (sp', .ok ((classifyResumedD zA (k v)), true))
    | none =>
      match classifyStepOut zA (evalFramesS efuel (sp.efResume v) sp.rest) with
      | .ok r => (sp', .ok (r, true))
      | .fail msg => (sp', .fail msg)
      | .timeout => (sp', .timeout)

/-- `Suspension.Discard` from error.go: store 1 into the counter without
resuming (the closure path's marker release is a pool no-op). -/
def Susp.discard (sp : Susp) : Susp := { sp with used := 1 }

/-- `Affine[R, A]` from affine.go: a one-shot wrapper around an arbitrary
continuation with an atomic use counter. -/
structure AffineK (R A : Type) where
  used : Nat
  resume : A → R

/-- `Once` from affine.go: wrap a continuation, counter at zero. -/
def OnceK {R A : Type} (k : A → R) : AffineK R A := ⟨0, k⟩

/-- `Affine.Resume` from affine.go: panic on non-first use, otherwise
invoke the continuation. -/
def AffineK.resumeOnce {R A : Type} (a : AffineK R A) (v : A) : AffineK R A × Outcome R :=
  let a' := { a with used := a.used + 1 }
  if a.used + 1 ≠ 1 then (a', .fail "kont: affine continuation resumed twice")
  else (a', .ok (a.resume v))

/-- `Affine.TryResume` from affine.go: non-panicking variant returning the
zero value (modelled by `default`) and `false` when already used. -/
def AffineK.tryResumeOnce {R A : Type} [Inhabited R] (a : AffineK R A) (v : A) :
    AffineK R A × (R × Bool) :=
  let a' := { a with used := a.used + 1 }
  if a.used + 1 ≠ 1 then (a', (default, false))
  else (a', (a.resume v, true))

/-- `Affine.Discard` from affine.go: mark used without invoking. -/
def AffineK.discardOnce {R A : Type} (a : AffineK R A) : AffineK R A :=
  { a with used := 1 }

/-- `ErrorContext[E]` from the error effect: the handler's mutable error
slot. -/
structure ErrorContext where
  err : G
  hasErr : Bool

/-- A fresh `ErrorContext` (zero `E` modelled as `gnil`). -/
def errZero : ErrorContext := ⟨.gnil, false⟩

/-- `rightCont` from error.go: the initial continuation of the error
runners, wrapping a final value in `Right`. -/
def errRightK : G → Dyn := fun a => .dg (.gright a)

/-- The zero value of the `Either[E, A]` struct (`isRight` false, zero
fields), produced by `handleDispatch`'s nil branch when instantiated at
`R = Either[E, A]`. -/
def zeroEither : G := .gleft .gnil

/-- Whether an operation implements the `DispatchError` capability
(structurally: the Error operations `Throw` and `Catch` do). -/
def hasDispatchError : Op → Bool
  | .throwOp _ => true
  | .catchOp _ _ _ => true
  | _ => false

/-- Whether an operation implements the `DispatchState` capability
(the State operations `Get`, `Put`, `Modify` do). -/
def hasDispatchState : Op → Bool
  | .getOp => true
  | .putOp _ => true
  | .modifyOp _ => true
  | _ => false

/-- `Throw.DispatchError` from error.go: set the error slot and return the
unit value with the resume flag (the enclosing handler wrapper then
inspects `HasErr`). -/
def throwDispatchError (e : G) : ErrorContext × G := (⟨e, true⟩, .gunit)

/-- `errorHandler.Dispatch`'s wrapper step (error.go lines 94-106): after a
`DispatchError` call, short-circuit with `Left ctx.Err` when the context
holds an error, otherwise resume with the returned value.  Panics and fuel
exhaustion from a nested `Catch` run propagate. -/
def errorWrap (p : ErrorContext × Outcome G) : ErrorContext × Outcome (G × Bool) :=
  match p with
  | (ctx, .ok v) =>
    if ctx.hasErr then (ctx, .ok (.gleft ctx.err, false)) else (ctx, .ok (v, true))
  | (ctx, .fail msg) => (ctx, .fail msg)
  | (ctx, .timeout) => (ctx, .timeout)

/-- `RunError` from error.go applied to an already-CPS-applied body: a nil
result yields `Right(zero A)`; otherwise the trampoline runs with a fresh
error context under the given (error-only) dispatcher, returning the
`Either` and discarding the context. -/
def runErrorAux (d : Disp ErrorContext) (zA : G) (body : Dyn) : Outcome G :=
  match body with
  | .dg .gnil => .ok (.gright zA)
  | r => (handleDispatch zeroEither d errZero r).2

/-- `Catch.DispatchError` from error.go: run the body under an internal
error-only runner; on a `Left`, run the handler the same way; a `Left`
from the handler is re-recorded in the context; otherwise the unwrapped
`Right` value is the operation's result.  The `ok _` fallthroughs are the
`Either` casts of the runner results, which fail only on ill-typed
programs. -/
def catchDispatchError (sub : Disp ErrorContext) (ctx : ErrorContext) (zA : G)
    (body : Dyn) (handler : G → Dyn) : ErrorContext × Outcome G :=
  match runErrorAux sub zA body with
  | .ok (.gleft e) =>
    match runErrorAux sub zA (handler e) with
    | .ok (.gleft e2) => (⟨e2, true⟩, .ok .gunit)
    | .ok (.gright v) => (ctx, .ok v)
    | .ok _ => (ctx, .fail "kont: interface conversion")
    | .fail msg => (ctx, .fail msg)
    | .timeout => (ctx, .timeout)
  | .ok (.gright v) => (ctx, .ok v)
  | .ok _ => (ctx, .fail "kont: interface conversion")
  | .fail msg => (ctx, .fail msg)
  | .timeout => (ctx, .timeout)

/-- `errorHandler.Dispatch` from error.go: operations with the
`DispatchError` capability are dispatched and wrapped; any other operation
panics with the unhandled-effect failure tagged `ErrorHandler`.  `Catch`'s
internal runs recurse at one fuel less (fuel is the model's accounting of
the nesting depth of `Catch`). -/
def errorDispatch (fuel : Nat) (ctx : ErrorContext) (op : Op) :
    ErrorContext × Outcome (G × Bool) :=
  match op with
  | .throwOp e => errorWrap ((throwDispatchError e).1, .ok (throwDispatchError e).2)
  | .catchOp zA body handler =>
    match fuel with
    | 0 => (ctx, .timeout)
    | fuel' + 1 => errorWrap (catchDispatchError (errorDispatch fuel') ctx zA body handler)
  | _ => (ctx, .fail "kont: unhandled effect in ErrorHandler")

/-- `stateErrorHandler.Dispatch` from compose.go: try the `DispatchState`
capability first, then `DispatchError` (with `Catch` running its body under
the internal error-only runner, exactly as `errorHandler` does), and panic
with the unhandled-effect failure tagged `StateErrorHandler` otherwise. -/
def stateErrorDispatch (fuel : Nat) (s : G × ErrorContext) (op : Op) :
    (G × ErrorContext) × Outcome (G × Bool) :=
  match s, op with
  | (st, ctx), .getOp => ((st, ctx), .ok (st, true))
  | (_st, ctx), .putOp v => ((v, ctx), .ok (.gunit, true))
  | (st, ctx), .modifyOp f => ((f st, ctx), .ok (f st, true))
  | (st, _), .throwOp e =>
    ((st, (throwDispatchError e).1),
      (errorWrap ((throwDispatchError e).1, .ok (throwDispatchError e).2)).2)
  | (st, ctx), .catchOp zA body handler =>
    (match fuel with
     | 0 => ((st, ctx), .timeout)
     | fuel' + 1 =>
       ((st, (errorWrap (catchDispatchError (errorDispatch fuel') ctx zA body handler)).1),
         (errorWrap (catchDispatchError (errorDispatch fuel') ctx zA body handler)).2))
  | (st, ctx), _ => ((st, ctx), .fail "kont: unhandled effect in StateErrorHandler")

/-- `ThrowError` from error.go: raise the `Throw` operation; the
continuation is stored in the marker but a short-circuiting handler never
invokes it. -/
def ThrowE (e : G) : EffC := fun k => .dsusp (.throwOp e) k

/-- `CatchError` from error.go: perform a `Catch` operation.  `Body` and
`Handler` are stored pre-applied to `rightCont` because `Catch.DispatchError`
only ever applies them there (see the header comment); `zA` is the phantom
result type's zero value used by the internal runner's nil branch. -/
def CatchErrorE (zA : G) (body : EffC) (handler : G → EffC) : EffC :=
  fun k => .dsusp (.catchOp zA (body errRightK) (fun e => handler e errRightK)) k

/-- `RunError` from error.go: apply the computation to `rightCont` and run
the error-only trampoline, returning the `Either`. -/
def RunErrorV (fuel : Nat) (zA : G) (m : EffC) : Outcome G :=
  runErrorAux (errorDispatch fuel) zA (m errRightK)

/-- `RunStateError` from compose.go: thread fresh state and error context
through the composed State-then-Error dispatcher; a nil result yields
`(Right(zero A), initial)`; the final state is returned alongside the
`Either` even on error. -/
def RunStateErrorV (fuel : Nat) (s0 : G) (m : EffC) : Outcome G × G :=
  match m errRightK with
  | .dg .gnil => (.ok (.gright .gnil), s0)
  | r =>
    let res := handleDispatch zeroEither (stateErrorDispatch fuel) (s0, errZero) r
    (res.2, res.1.1)

/-- The external driving loop from `Step`'s documented usage: while a
suspension is pending, dispatch its operation with the handler; resume on
`(v, true)`, finish with `v` on `(v, false)`.  Fueled because the loop
length is the computation's (unbounded) number of effects; the same fuel is
handed to expression-path resumes. -/
def driveSusp {σ : Type} (d : Disp σ) (zA : G) (fuel : Nat) (s : σ) :
    G × Option Susp → σ × Outcome G
  | (v, none) => (s, .ok v)
  | (_, some sp) =>
    match fuel with
    | 0 => (s, .timeout)
    | fuel' + 1 =>
      match d s sp.op with
      | (s', .ok (v, true)) =>
        match (Susp.resume zA fuel' sp v).2 with
        | .ok next => driveSusp d zA fuel' s' next
        | .fail msg => (s', .fail msg)
        | .timeout => (s', .timeout)
      | (s', .ok (v, false)) => (s', .ok v)
      | (s', .fail msg) => (s', .fail msg)
      | (s', .timeout) => (s', .timeout)

/-- Addition of two Go integer values (the typed `s + 10` inside a state
program's bind function; non-integers fall back to the zero value like any
failed cast would never be reached in a well-typed program). -/
def gadd : G → G → G
  | .gint a, .gint b => .gint (a + b)
  | _, _ => .gnil

/-- The stateful program of the stepping scenario, closure form:
`let s = Get in Put(s+10); Get`, built from `Perform(Get)`, `Bind`,
`Perform(Put(s+10))` and `Perform(Get)`. -/
def stepProg : EffC :=
  Bind (PerformE .getOp) (fun s =>
    Then (PerformE (.putOp (gadd s (.gint 10)))) (PerformE .getOp))

/-- The same program in frame form, built from `ExprPerform`, `ExprBind`
and `ExprThen`. -/
def stepProgExpr : Exp :=
  ExprBindE (ExprPerformE .getOp) (fun s =>
    ExprThenE (ExprPerformE (.putOp (gadd s (.gint 10)))) (ExprPerformE .getOp))

/-- Externally drive a closure-form computation for exactly three
suspensions: record each suspension's operation, resume with the three
given values in order, and require the third resume to complete with no
further suspension.  Returns `none` if the drive deviates from that shape
anywhere. -/
def drive3 (zA : G) (m : EffC) (v1 v2 v3 : G) : Option (Op × Op × Op × G) :=
  match StepE zA m with
  | (_, some s1) =>
    match (Susp.resume zA 0 s1 v1).2 with
    | .ok (_, some s2) =>
      match (Susp.resume zA 0 s2 v2).2 with
      | .ok (_, some s3) =>
        match (Susp.resume zA 0 s3 v3).2 with
        | .ok (v, none) => some (s1.op, s2.op, s3.op, v)
        | _ => none
      | _ => none
    | _ => none
  | _ => none

/-- The frame-form analogue of `drive3`, driving via `StepExpr` and the
expression path of `Suspension.Resume`. -/
def drive3E (zA : G) (fuel : Nat) (m : Exp) (v1 v2 v3 : G) : Option (Op × Op × Op × G) :=
  match StepExprE zA fuel m with
  | .ok (_, some s1) =>
    match (Susp.resume zA fuel s1 v1).2 with
    | .ok (_, some s2) =>
      match (Susp.resume zA fuel s2 v2).2 with
      | .ok (_, some s3) =>
        match (Susp.resume zA fuel s3 v3).2 with
        | .ok (v, none) => some (s1.op, s2.op, s3.op, v)
        | _ => none
      | _ => none
    | _ => none
  | _ => none

/-- A State operation as performed by a program: the shape of the effects a
computation may run before throwing. -/
inductive SOp where
  | sget
  | sput (v : G)
  | smod (f : G → G)

/-- The effect operation performed for an `SOp`. -/
def performSOp : SOp → Op
  | .sget => .getOp
  | .sput v => .putOp v
  | .smod f => .modifyOp f

/-- The state after the State handler dispatches an `SOp`. -/
def applySOp (s : G) : SOp → G
  | .sget => s
  | .sput v => v
  | .smod f => f s

/-- A program that performs the listed State operations in order and then
throws `e`: the general shape of a computation whose `Put`s and `Modify`s
all precede a `Throw`. -/
def progThrow (e : G) : List SOp → EffC
  | [] => ThrowE e
  | o :: rest => Then (PerformE (performSOp o)) (progThrow e rest)

/-- C2: the closure-form combinators satisfy the monad laws as equalities
of the embedded CPS functions, for every answer type `R` and hence every
final continuation: left identity `Bind(Return(a), f) = f(a)`, right
identity `Bind(m, Return) = m`, and associativity of `Bind`. -/
theorem monad_laws_hold :
    (∀ (R A B : Type) (a : A) (f : A → Cont R B), Bind (Return a) f = f a)
    ∧ (∀ (R A : Type) (m : Cont R A), Bind m Return = m)
    ∧ (∀ (R A B C : Type) (m : Cont R A) (f : A → Cont R B) (g : B → Cont R C),
        Bind (Bind m f) g = Bind m (fun x => Bind (f x) g)) :=
  ⟨fun _ _ _ _ _ => rfl, fun _ _ _ => rfl, fun _ _ _ _ _ _ _ => rfl⟩

/-- C5: `Reset(Bind(Shift(k ↦ k(1)+k(10)), x ↦ Return(x*2)))` evaluated
with the identity continuation via `Run` yields `22 = (1*2) + (10*2)`: the
continuation captured by `Shift` extends to the enclosing `Reset` and is
invoked twice in the shift body. -/
theorem shift_reset_yields_22 :
    Run (Reset (Bind (Shift (fun k => k 1 + k 10)) (fun x => Return (x * 2)))) = (22 : Int) :=
  rfl

/-- C4: stepping the stateful program `let s = Get in Put(s+10); Get` from
state 5 produces exactly three suspensions with operations `Get`, `Put(15)`,
`Get` in order; resuming them with `5`, the unit value, and `15` completes
with final value `15` and no further suspension — both for `Step` on the
`Cont` form and for `StepExpr` on the `Expr` form. -/
theorem stepping_stateful_program :
    drive3 (G.gint 0) stepProg (G.gint 5) G.gunit (G.gint 15)
        = some (.getOp, .putOp (.gint 15), .getOp, .gint 15)
    ∧ drive3E (G.gint 0) 20 stepProgExpr (G.gint 5) G.gunit (G.gint 15)
        = some (.getOp, .putOp (.gint 15), .getOp, .gint 15) :=
  ⟨rfl, rfl⟩

/-- C7: whenever the computation hands the trampoline the distinguished
nil value — at the initial application or after any resume — `Handle`
returns the zero value of the answer type as a normal (never failing)
result. -/
theorem handle_nil_completion :
    (∀ (σ : Type) (zR : G) (d : Disp σ) (s : σ),
        handleDispatch zR d s (.dg .gnil) = (s, .ok zR))
    ∧ (∀ (σ : Type) (zR : G) (d : Disp σ) (s : σ) (m : EffC),
        m initK = .dg .gnil → HandleE zR d s m = (s, .ok zR)) := by
  refine ⟨fun σ zR d s => rfl, fun σ zR d s m h => ?_⟩
  simp only [HandleE, h]
  rfl

/-- Witness for C7 at a concrete nil-valued computation and handler. -/
theorem handle_nil_completion_witness :
    (fun (_ : G → Dyn) => Dyn.dg G.gnil) initK = Dyn.dg G.gnil
    ∧ HandleE G.gunit (fun (u : Unit) (_ : Op) => (u, Outcome.timeout)) ()
        (fun _ => .dg .gnil) = ((), .ok G.gunit) :=
  ⟨rfl, handle_nil_completion.2 Unit G.gunit
    (fun (u : Unit) (_ : Op) => (u, Outcome.timeout)) () (fun _ => .dg .gnil) rfl⟩

/-- C8: the interpreter's two rejection sites for a frame lacking the
`Unwind` capability — the head of a `Chain` node and the plain position —
panic with the SAME message `kont: frame type does not implement Unwind`
(the repository's own tests expect the two positions to panic with the
distinct messages `kont: unknown frame type in chain` and
`kont: unknown frame type`, so the claimed distinction does not hold of
this code). -/
theorem unknown_frame_same_message :
    RunPureE 10 ⟨G.gint 42, .unknownF "NoUnwindFrame"⟩
        = .fail "kont: frame type does not implement Unwind"
    ∧ RunPureE 10 ⟨G.gint 42, ChainFramesD (.unknownF "NoUnwindFrame")
          (.mapF (fun a => a) .ret)⟩
        = .fail "kont: frame type does not implement Unwind" :=
  ⟨rfl, rfl⟩

/-- C9: identity elision in frame composition is mandatory and exact:
`ChainFrames` returns the very other operand whenever either side is the
`ReturnFrame` sentinel, and builds a fresh (un-pooled) `chainedFrame` node
exactly when neither is; the pooled variant `chainFromPool` elides
identically, marking its fresh node pooled. -/
theorem chain_identity_elision :
    (∀ x : Frame, ChainFramesD .ret x = x)
    ∧ (∀ x : Frame, ChainFramesD x .ret = x)
    ∧ (∀ a b : Frame, a ≠ .ret → b ≠ .ret → ChainFramesD a b = .chainF a b false)
    ∧ (∀ x : Frame, chainFromPoolD .ret x = x)
    ∧ (∀ x : Frame, chainFromPoolD x .ret = x)
    ∧ (∀ a b : Frame, a ≠ .ret → b ≠ .ret → chainFromPoolD a b = .chainF a b true) := by
  refine ⟨fun x => ?_, fun x => ?_, fun a b ha hb => ?_, fun x => ?_, fun x => ?_,
    fun a b ha hb => ?_⟩
  · cases x <;> rfl
  · cases x <;> rfl
  · cases a with
    | ret => exact absurd rfl ha
    | _ => cases b with
      | ret => exact absurd rfl hb
      | _ => rfl
  · cases x <;> rfl
  · cases x <;> rfl
  · cases a with
    | ret => exact absurd rfl ha
    | _ => cases b with
      | ret => exact absurd rfl hb
      | _ => rfl

/-- Witness for C9's fresh-node clauses at concrete non-sentinel frames. -/
theorem chain_identity_elision_witness :
    (Frame.mapF (fun g => g) .ret ≠ Frame.ret)
    ∧ (Frame.unknownF "u" ≠ Frame.ret)
    ∧ ChainFramesD (Frame.mapF (fun g => g) .ret) (Frame.unknownF "u")
        = Frame.chainF (Frame.mapF (fun g => g) .ret) (Frame.unknownF "u") false
    ∧ chainFromPoolD (Frame.mapF (fun g => g) .ret) (Frame.unknownF "u")
        = Frame.chainF (Frame.mapF (fun g => g) .ret) (Frame.unknownF "u") true := by
  refine ⟨?_, ?_, ?_, ?_⟩
  · intro h
    exact nomatch h
  · intro h
    exact nomatch h
  · exact chain_identity_elision.2.2.1 _ _ (fun h => nomatch h) (fun h => nomatch h)
  · exact chain_identity_elision.2.2.2.2.2 _ _ (fun h => nomatch h) (fun h => nomatch h)

/-- C3: suspensions are one-shot.  Once consumed (`used ≥ 1`, whether by
`Resume`, a successful `TryResume`, or `Discard`), every later `Resume`
fails with the double-resume panic and every later `TryResume` returns
`(zero, none, false)` without failing; `Resume`/`TryResume` always advance
the counter and `Discard` sets it; on a fresh suspension, `Resume` advances
the underlying representation exactly one step (the stored marker's resume
on the closure path, one stepping-evaluator run on the expression path).
The standalone `Affine` wrapper obeys the same law. -/
theorem suspension_one_shot :
    (∀ (zA : G) (ef : Nat) (sp : Susp) (v : G), 1 ≤ sp.used →
        (Susp.resume zA ef sp v).2 = .fail "kont: suspension resumed twice"
        ∧ (Susp.tryResume zA ef sp v).2 = .ok ((zA, none), false))
    ∧ (∀ (zA : G) (ef : Nat) (sp : Susp) (v : G),
        (Susp.resume zA ef sp v).1.used = sp.used + 1
        ∧ (Susp.tryResume zA ef sp v).1.used = sp.used + 1)
    ∧ (∀ sp : Susp, (Susp.discard sp).used = 1)
    ∧ (∀ (zA : G) (ef : Nat) (sp : Susp) (v : G) (k : G → Dyn),
        sp.used = 0 → sp.cont = some k →
        (Susp.resume zA ef sp v).2 = .ok (classifyResumedD zA (k v))
        ∧ (Susp.tryResume zA ef sp v).2 = .ok ((classifyResumedD zA (k v)), true))
    ∧ (∀ (zA : G) (ef : Nat) (sp : Susp) (v : G), sp.used = 0 → sp.cont = none →
        (Susp.resume zA ef sp v).2
          = classifyStepOut zA (evalFramesS ef (sp.efResume v) sp.rest))
    ∧ (∀ (R A : Type) (a : AffineK R A) (v : A), 1 ≤ a.used →
        (a.resumeOnce v).2 = .fail "kont: affine continuation resumed twice")
    ∧ (∀ (R A : Type) (_inst : Inhabited R) (a : AffineK R A) (v : A), 1 ≤ a.used →
        (a.tryResumeOnce v).2 = ((default : R), false))
    ∧ (∀ (R A : Type) (a : AffineK R A) (v : A),
        (a.resumeOnce v).1.used = a.used + 1 ∧ a.discardOnce.used = 1)
    ∧ (∀ (R A : Type) (a : AffineK R A) (v : A), a.used = 0 →
        (a.resumeOnce v).2 = .ok (a.resume v))
    ∧ (∀ (R A : Type) (k : A → R), (OnceK k).used = 0) := by
  refine ⟨fun zA ef sp v h => ?_, fun zA ef sp v => ?_, fun sp => rfl,
    fun zA ef sp v k h0 hc => ?_, fun zA ef sp v h0 hc => ?_,
    fun R A a v h => ?_, fun R A _inst a v h => ?_, fun R A a v => ?_,
    fun R A a v h0 => ?_, fun R A k => rfl⟩
  · have hne : sp.used + 1 ≠ 1 := by omega
    constructor
    · simp only [Susp.resume, if_pos hne]
    · simp only [Susp.tryResume, if_pos hne]
  · constructor
    · simp only [Susp.resume]
      split <;> (try split) <;> rfl
    · simp only [Susp.tryResume]
      split
      · rfl
      · split
        · rfl
        · split <;> rfl
  · have hne : ¬ (sp.used + 1 ≠ 1) := by omega
    constructor
    · simp only [Susp.resume, if_neg hne, hc]
    · simp only [Susp.tryResume, if_neg hne, hc]
  · have hne : ¬ (sp.used + 1 ≠ 1) := by omega
    simp only [Susp.resume, if_neg hne, hc]
  · have hne : a.used + 1 ≠ 1 := by omega
    simp only [AffineK.resumeOnce, if_pos hne]
  · have hne : a.used + 1 ≠ 1 := by omega
    simp only [AffineK.tryResumeOnce, if_pos hne]
  · constructor
    · simp only [AffineK.resumeOnce]
      split <;> rfl
    · rfl
  · have hne : ¬ (a.used + 1 ≠ 1) := by omega
    simp only [AffineK.resumeOnce, if_neg hne]

/-- Witness for C3 at concrete suspensions (consumed and fresh, both
paths) and concrete affine continuations over `Nat`. -/
theorem suspension_one_shot_witness :
    (1 ≤ (Susp.mk 1 .getOp (some (fun g => .dg g)) identityResume .ret).used
      ∧ (Susp.resume G.gunit 0 (Susp.mk 1 .getOp (some (fun g => .dg g)) identityResume .ret)
          G.gunit).2 = .fail "kont: suspension resumed twice")
    ∧ ((Susp.mk 0 .getOp (some (fun g => .dg g)) identityResume .ret).used = 0
      ∧ (Susp.mk 0 .getOp (some (fun g => .dg g)) identityResume .ret).cont
          = some (fun g => .dg g)
      ∧ (Susp.resume G.gunit 0 (Susp.mk 0 .getOp (some (fun g => .dg g)) identityResume .ret)
          (G.gint 3)).2 = .ok (classifyResumedD G.gunit ((fun g => Dyn.dg g) (G.gint 3))))
    ∧ (1 ≤ (AffineK.mk 1 (fun n : Nat => n)).used
      ∧ ((AffineK.mk 1 (fun n : Nat => n)).resumeOnce 4).2
          = .fail "kont: affine continuation resumed twice") := by
  refine ⟨⟨by decide, ?_⟩, ⟨rfl, rfl, ?_⟩, ⟨by decide, ?_⟩⟩
  · exact (suspension_one_shot.1 G.gunit 0 _ G.gunit (by decide)).1
  · exact (suspension_one_shot.2.2.2.1 G.gunit 0 _ (G.gint 3) (fun g => .dg g) rfl rfl).1
  · exact suspension_one_shot.2.2.2.2.2.1 Nat Nat _ 4 (by decide)

/-- Running a throw-terminated State program under the composed
State+Error trampoline: the state threads through the prefix of State
operations and is returned untouched by the final `Throw`, which
short-circuits with `Left e` and records the error in the context. -/
theorem seThrowRun (fuel : Nat) (e : G) :
    ∀ (ops : List SOp) (s0 : G) (ctx : ErrorContext),
      handleDispatch zeroEither (stateErrorDispatch fuel) (s0, ctx) (progThrow e ops errRightK)
        = ((List.foldl applySOp s0 ops, ⟨e, true⟩), .ok (.gleft e)) := by
  intro ops
  induction ops with
  | nil =>
    intro s0 ctx
    simp [progThrow, ThrowE, handleDispatch, stateErrorDispatch, throwDispatchError, errorWrap]
  | cons o rest ih =>
    intro s0 ctx
    cases o <;>
      simp [progThrow, Then, PerformE, handleDispatch, stateErrorDispatch, performSOp,
        applySOp, ih]

/-- C6: under `RunStateError`, a computation that raises `Throw(e)` yields
`Left(e)` paired with the state exactly as it stood at the throw point:
dispatching a `Throw` leaves the state component untouched while
short-circuiting (first conjunct, for every pending continuation and every
prior context), and for every prefix of `Put`/`Modify`/`Get` operations
executed before the `Throw` the returned state is that prefix folded into
the initial state (second conjunct). -/
theorem run_state_error_preserves_state :
    (∀ (fuel : Nat) (st x0 : G) (b0 : Bool) (e : G) (k : G → Dyn),
        handleDispatch zeroEither (stateErrorDispatch fuel) (st, ⟨x0, b0⟩)
            (.dsusp (.throwOp e) k)
          = ((st, ⟨e, true⟩), .ok (.gleft e)))
    ∧ (∀ (fuel : Nat) (s0 e : G) (ops : List SOp),
        RunStateErrorV fuel s0 (progThrow e ops)
          = (.ok (.gleft e), List.foldl applySOp s0 ops)) := by
  constructor
  · intro fuel st x0 b0 e k
    simp [handleDispatch, stateErrorDispatch, throwDispatchError, errorWrap]
  · intro fuel s0 e ops
    have h := seThrowRun fuel e ops s0 errZero
    cases ops with
    | nil =>
      simp only [progThrow, ThrowE] at h
      simp [RunStateErrorV, progThrow, ThrowE, h]
    | cons o rest =>
      simp only [progThrow, Then, PerformE] at h
      simp [RunStateErrorV, progThrow, Then, PerformE, h]

/-- Inside a `Catch`, the body runs under the internal error-only handler:
its first operation lacking the `DispatchError` capability makes the whole
`Catch` dispatch fail with the unhandled-effect panic tagged
`ErrorHandler`, whatever the surrounding context. -/
theorem catchBodyUnhandled (fuel : Nat) (ctx : ErrorContext) (zA : G) (op : Op)
    (h : hasDispatchError op = false) (bk : G → Dyn) (handler : G → Dyn) :
    errorWrap (catchDispatchError (errorDispatch fuel) ctx zA (.dsusp op bk) handler)
      = (ctx, .fail "kont: unhandled effect in ErrorHandler") := by
  have hdisp : errorDispatch fuel errZero op
      = (errZero, .fail "kont: unhandled effect in ErrorHandler") := by
    cases op <;> simp_all [errorDispatch, hasDispatchError]
  simp [catchDispatchError, runErrorAux, handleDispatch, hdisp, errorWrap]

/-- C10: a `Catch` body is interpreted by the internal error-only handler,
which does not forward non-Error effects to the surrounding runner: for
every operation without the `DispatchError` capability at the head of the
body, dispatching the `Catch` through the composed State+Error handler
fails with the unhandled-effect panic tagged `ErrorHandler` (first
conjunct, and fourth conjunct for the full `RunStateError` runner on a
`Catch` over `Perform(Get)`), even though the same runner handles `Get`
and `Put` directly outside the `Catch` (second and third conjuncts). -/
theorem catch_body_not_forwarded :
    (∀ (fuel : Nat) (st : G) (ctx : ErrorContext) (zA : G) (op : Op),
        hasDispatchError op = false → ∀ (bk : G → Dyn) (handler : G → Dyn),
        stateErrorDispatch (fuel + 1) (st, ctx) (.catchOp zA (.dsusp op bk) handler)
          = ((st, ctx), .fail "kont: unhandled effect in ErrorHandler"))
    ∧ (∀ (fuel : Nat) (st : G) (ctx : ErrorContext),
        stateErrorDispatch fuel (st, ctx) .getOp = ((st, ctx), .ok (st, true)))
    ∧ (∀ (fuel : Nat) (st : G) (ctx : ErrorContext) (v : G),
        stateErrorDispatch fuel (st, ctx) (.putOp v) = ((v, ctx), .ok (.gunit, true)))
    ∧ (∀ (fuel : Nat) (s0 zA : G) (handler : G → EffC),
        RunStateErrorV (fuel + 1) s0 (CatchErrorE zA (PerformE .getOp) handler)
          = (.fail "kont: unhandled effect in ErrorHandler", s0)) := by
  refine ⟨fun fuel st ctx zA op h bk handler => ?_, fun fuel st ctx => rfl,
    fun fuel st ctx v => rfl, fun fuel s0 zA handler => ?_⟩
  · have hw := catchBodyUnhandled fuel ctx zA op h bk handler
    simp [stateErrorDispatch, hw]
  · have hw := catchBodyUnhandled fuel errZero zA Op.getOp rfl errRightK
      (fun e => handler e errRightK)
    simp only [PerformE] at hw
    simp [RunStateErrorV, CatchErrorE, PerformE, handleDispatch, stateErrorDispatch, hw]

/-- Witness for C10's hypothesis-bearing clause at `Get` inside the body. -/
theorem catch_body_not_forwarded_witness :
    hasDispatchError Op.getOp = false
    ∧ stateErrorDispatch 1 (G.gint 9, errZero)
        (.catchOp G.gnil (.dsusp .getOp identityResume) (fun _ => .dg .gnil))
        = ((G.gint 9, errZero), .fail "kont: unhandled effect in ErrorHandler") :=
  ⟨rfl, catch_body_not_forwarded.1 0 (G.gint 9) errZero G.gnil .getOp rfl
    identityResume (fun _ => .dg .gnil)⟩

/-- `chainFromPool` with a `ReturnFrame` second operand elides to the first
operand. -/
theorem cfpRet (x : Frame) : chainFromPoolD x .ret = x := by
  cases x <;> rfl

/-- Evaluating the reified form of a `Resumed` value under `evalFrames`
with the handler processor agrees with the closure-world trampoline
`handleDispatch`, final handler state included, given fuel at least twice
the trampoline's step count: each suspension step of the reified chain
costs one `EffectFrame` pass and one `BindFrame` pass. -/
theorem reifyEval {σ : Type} (zA : G) (d : Disp σ) :
    ∀ (r : Dyn) (s : σ) (fuel : Nat), 2 * hdSteps d s r + 1 ≤ fuel →
      evalFramesH d fuel s (.dg (fromResumedE zA r).value) (fromResumedE zA r).frame
        = handleDispatch zA d s r
  | .dg g, s, fuel, h => by
    obtain ⟨fuel', rfl⟩ : ∃ n, fuel = n + 1 := ⟨fuel - 1, by omega⟩
    cases g <;> rfl
  | .dsusp op k, s, fuel, h => by
    obtain ⟨f1, rfl⟩ : ∃ n, fuel = n + 1 := ⟨fuel - 1, by omega⟩
    rcases hds : d s op with ⟨s', dr⟩
    rcases dr with ⟨v, b⟩ | msg | _
    · cases b
      · simp [fromResumedE, Exp.value, Exp.frame, evalFramesH, handleDispatch, hds]
      · have hstep : hdSteps d s (.dsusp op k) = hdSteps d s' (k v) + 1 := by
          simp [hdSteps, hds]
        obtain ⟨f2, rfl⟩ : ∃ n, f1 = n + 1 := ⟨f1 - 1, by omega⟩
        have ih := reifyEval zA d (k v) s' f2 (by omega)
        simp only [fromResumedE, Exp.value, Exp.frame, evalFramesH, handleDispatch, hds,
          applyBindFn, cfpRet]
        exact ih
    · simp [fromResumedE, Exp.value, Exp.frame, evalFramesH, handleDispatch, hds]
    · simp [fromResumedE, Exp.value, Exp.frame, evalFramesH, handleDispatch, hds]

/-- The closure trampoline performs at least one step on any value. -/
theorem hdStepsPos {σ : Type} (d : Disp σ) (s : σ) (r : Dyn) : 1 ≤ hdSteps d s r := by
  cases r
  · simp [hdSteps]
  · simp only [hdSteps]
    split <;> omega

/-- Driving a classified `Resumed` value through `Step` suspensions with a
handler agrees with the closure-world trampoline `handleDispatch`, final
handler state included, given fuel at least the trampoline's step count. -/
theorem driveEval {σ : Type} (zA : G) (d : Disp σ) :
    ∀ (r : Dyn) (s : σ) (fuel : Nat), hdSteps d s r ≤ fuel →
      driveSusp d zA fuel s (classifyResumedD zA r) = handleDispatch zA d s r
  | .dg g, s, fuel, _h => by
    cases g <;> simp [classifyResumedD, driveSusp, handleDispatch]
  | .dsusp op k, s, fuel, h => by
    have hp := hdStepsPos d s (.dsusp op k)
    obtain ⟨f1, rfl⟩ : ∃ n, fuel = n + 1 := ⟨fuel - 1, by omega⟩
    rcases hds : d s op with ⟨s', dr⟩
    rcases dr with ⟨v, b⟩ | msg | _
    · cases b
      · simp [classifyResumedD, driveSusp, handleDispatch, hds]
      · have hstep : hdSteps d s (.dsusp op k) = hdSteps d s' (k v) + 1 := by
          simp [hdSteps, hds]
        have ih := driveEval zA d (k v) s' f1 (by omega)
        simp only [classifyResumedD, driveSusp, handleDispatch, hds, Susp.resume]
        simpa [Susp.resume] using ih
    · simp [classifyResumedD, driveSusp, handleDispatch, hds]
    · simp [classifyResumedD, driveSusp, handleDispatch, hds]

/-- C1: for every computation and every (arbitrarily stateful) handler,
the three evaluation modes agree — the closure-world trampoline
`Handle`, the frame-world `HandleExpr` over `Reify`, and external driving
via `Step` with the handler dispatched at each suspension — producing the
same final answer AND the same final handler state; since the handler
state is universally quantified it can record the dispatched operations,
so the operation sequence delivered to the handler is identical in all
three modes.  Fuel bounds the fueled loops from below by the closure
trampoline's step count. -/
theorem handle_modes_agree :
    ∀ (σ : Type) (d : Disp σ) (zA : G) (m : EffC) (s : σ) (fuel : Nat),
      2 * hdSteps d s (m initK) + 1 ≤ fuel →
      HandleExprE d fuel s (ReifyE zA m) = HandleE zA d s m
      ∧ driveSusp d zA fuel s (StepE zA m) = HandleE zA d s m :=
  fun _σ d zA m s fuel h =>
    ⟨reifyEval zA d (m initK) s fuel h,
      driveEval zA d (m initK) s fuel (by omega)⟩

/-- A trace-collecting handler: its state records every dispatched
operation, so agreement of final states is agreement of operation
sequences. -/
def traceD : Disp (List Op) := fun tr op => (tr ++ [op], .ok (G.gunit, true))

/-- Witness for C1 with a trace-collecting handler over the program
`Then(Perform(Ask), Return 7)`. -/
theorem handle_modes_agree_witness :
    (2 * hdSteps traceD [] ((Then (PerformE .askOp) (Return (G.gint 7))) initK) + 1 ≤ 10)
    ∧ (HandleExprE traceD 10 [] (ReifyE G.gnil (Then (PerformE .askOp) (Return (G.gint 7))))
          = HandleE G.gnil traceD [] (Then (PerformE .askOp) (Return (G.gint 7)))
        ∧ driveSusp traceD G.gnil 10 [] (StepE G.gnil (Then (PerformE .askOp) (Return (G.gint 7))))
          = HandleE G.gnil traceD [] (Then (PerformE .askOp) (Return (G.gint 7)))) :=
  ⟨by decide, handle_modes_agree (List Op) traceD G.gnil
    (Then (PerformE .askOp) (Return (G.gint 7))) [] 10 (by decide)⟩

end Kont
